import Mathlib

/-!
# MealMoment service worker (`sw.js`)

A shallow embedding of the cache lifecycle (install, activate) and of the
request router with its three strategies, followed by the properties of the
specification that concern them.

Conventions of the embedding:

* JavaScript values that the handlers juggle are `JsValue`s: `undefined`, a
  `Response`, or a `Promise` object together with the value it fulfils with.
  Truthiness, the `||` operator and `await` act on them as in the language.
* The named stores (`caches`) are an association list from store name to
  `Cache`; a `Cache` is an association list from request key (the URL without
  its fragment) to `Response`. Only GET requests with an `http` or `https`
  URL can be stored or matched.
  Handlers take the storage and return the new storage next to their result.
* Everything outside the script (network outcomes, the origin against which
  root-relative keys are resolved, which store deletions fail) is a `Platform`.
-/

namespace MealMoment

/-! ## Constants (sw.js lines 3-31) -/

/-- Name of the current store version (sw.js line 3). -/
def CACHE_NAME : String := "mealmoment-v5"

/-- Core files for all three apps (sw.js lines 7-21). -/
def CORE_FILES : List String := [
  "/",
  "/index.html",
  "/owner-dashboard.html",
  "/driver.html",
  "/install.html",
  "/manifest-customer.json",
  "/manifest-owner.json",
  "/manifest-driver.json",
  "/sw.js",
  "/icon-192.png",
  "/icon-512.png",
  "/image/MealMomenetlogo.jpeg",
  "/MealMomentDriverlogo.jpeg"
]

/-- External resources to cache (sw.js lines 24-31). -/
def EXTERNAL_RESOURCES : List String := [
  "https://fonts.googleapis.com/css2?family=Poppins:wght@400;500;600;700;800&family=Inter:wght@300;400;500;600&display=swap",
  "https://cdnjs.cloudflare.com/ajax/libs/font-awesome/6.4.0/css/all.min.css",
  "https://www.gstatic.com/firebasejs/9.22.0/firebase-app-compat.js",
  "https://www.gstatic.com/firebasejs/9.22.0/firebase-auth-compat.js",
  "https://www.gstatic.com/firebasejs/9.22.0/firebase-firestore-compat.js",
  "https://www.gstatic.com/firebasejs/9.22.0/firebase-storage-compat.js"
]

/-! ## Platform objects -/

/-- An HTTP response: status code, header list and body text. -/
structure Response where
  status : Nat
  headers : List (String × String)
  body : String
deriving DecidableEq, Repr

/-- The `ok` attribute of a response: the status is in the range 200-299. -/
def Response.ok (r : Response) : Bool :=
  decide (200 ≤ r.status) && decide (r.status ≤ 299)

/-- The `new Response(body, { headers })` constructor: status 200 and the given headers. -/
def newResponse (body : String) (headers : List (String × String)) : Response :=
  { status := 200, headers := headers, body := body }

/-- A request as the fetch event carries it: `url` is the absolute URL text,
`hostname` and `pathname` are the components `new URL(url)` gives. -/
structure Request where
  url : String
  method : String
  mode : String
  hostname : String
  pathname : String
deriving DecidableEq, Repr

/-- The values the handlers compute with. `promise v` is a Promise object
that fulfils with `v`. -/
inductive JsValue where
  | undefined : JsValue
  | response (r : Response) : JsValue
  | promise (result : JsValue) : JsValue
deriving DecidableEq, Repr

/-- ToBoolean: `undefined` is falsy, every object (a Response, a Promise) is truthy. -/
def JsValue.truthy : JsValue → Bool
  | JsValue.undefined => false
  | JsValue.response _ => true
  | JsValue.promise _ => true

/-- The `a || b` operator: `a` when `a` is truthy, else `b`. -/
def jsOr (a b : JsValue) : JsValue :=
  if a.truthy then a else b

/-- The value obtained by `await v`, also the value an `async` function's
promise fulfils with when the function returns `v`: promises are unwrapped. -/
def JsValue.await : JsValue → JsValue
  | JsValue.promise v => v.await
  | v => v

/-- A store: request URL to stored response. -/
abbrev Cache := List (String × Response)

/-- The named stores of the origin (`caches`). -/
abbrev CacheStorage := List (String × Cache)

/-- What the script cannot decide: the worker's origin, the outcome of each
network fetch by URL (`none` when the fetch rejects) and the store names whose
deletion rejects. -/
structure Platform where
  origin : String
  fetch : String → Option Response
  deleteFails : String → Bool

/-- Resolution of a key against the worker's origin: a root-relative path is
prefixed by the origin, an absolute URL is kept. -/
def resolveUrl (origin key : String) : String :=
  match key.data with
  | '/' :: _ => origin ++ key
  | _ => key

/-- The substring test of `String.prototype.includes`, on character lists. -/
def includesChars : List Char → List Char → Bool
  | [], sub => sub.isEmpty
  | c :: s, sub => sub.isPrefixOf (c :: s) || includesChars s sub

/-- The test `s.includes(sub)`. -/
def includes (s sub : String) : Bool :=
  includesChars s.data sub.data

/-- The key under which a store files and finds a URL: the URL resolved
against the origin, without its fragment (the store's matching leaves the
fragment out, the query string counts). -/
def requestKey (origin url : String) : String :=
  String.mk ((resolveUrl origin url).data.takeWhile (fun c => c != '#'))

/-- The scheme of the URL is `http` or `https`. -/
def httpScheme (url : String) : Bool :=
  "http:".data.isPrefixOf url.data || "https:".data.isPrefixOf url.data


/-! ## The stores -/

/-- The call `cache.match(url)` with a URL text (a GET request for it): a
Promise that fulfils with the response stored for the URL, fragment left out,
or with `undefined` when the store has no entry for it. -/
def cacheMatch (origin : String) (cache : Cache) (url : String) : JsValue :=
  JsValue.promise
    (match cache.lookup (requestKey origin url) with
     | some r => JsValue.response r
     | none => JsValue.undefined)

/-- The call `cache.match(request)` with a request object: a request whose
method is not GET matches nothing, a GET request is matched by its URL. -/
def cacheMatchRequest (origin : String) (cache : Cache) (request : Request) : JsValue :=
  if request.method != "GET" then JsValue.promise JsValue.undefined
  else cacheMatch origin cache request.url

/-- Splits a header value at its commas. -/
def splitCommas : List Char → List (List Char)
  | [] => [[]]
  | c :: cs =>
    match splitCommas cs with
    | [] => [[c]]
    | w :: ws => if c = ',' then [] :: w :: ws else (c :: w) :: ws

/-- Removes blanks and tabs at both ends. -/
def trimBlanks (v : List Char) : List Char :=
  ((v.dropWhile (fun c => c == ' ' || c == '\t')).reverse.dropWhile
    (fun c => c == ' ' || c == '\t')).reverse

/-- A `Vary` header of the response lists `*`. -/
def varyStar (r : Response) : Bool :=
  r.headers.any (fun h =>
    h.1.data.map Char.toLower == "vary".data &&
      (splitCommas h.2.data).any (fun v => trimBlanks v == ['*']))

/-- The pairs of request and response `cache.put` refuses (its promise
rejects and nothing is stored): a request whose URL scheme is not `http` or
`https`, a request whose method is not GET, a response of status 206 and a
response that varies on `*`. -/
def putRejects (origin url method : String) (r : Response) : Bool :=
  !httpScheme (resolveUrl origin url) || method != "GET" || r.status == 206 || varyStar r

/-- The call `cache.put(request, response)` for a request of the given URL and
method: the entry the request matches is replaced by the new response; a
refused pair leaves the store as it was. -/
def cachePut (origin : String) (cache : Cache) (url method : String) (r : Response) : Cache :=
  if putRejects origin url method r then cache
  else (requestKey origin url, r) :: cache.filter (fun e => e.1 != requestKey origin url)

/-- The call `caches.open(name)`: the named store, created empty when it does not exist. -/
def cachesOpen (caches : CacheStorage) (name : String) : Cache × CacheStorage :=
  match caches.lookup name with
  | some cache => (cache, caches)
  | none => ([], caches ++ [(name, [])])

/-- Writes the contents of an opened store back under its name. -/
def setCache (caches : CacheStorage) (name : String) (cache : Cache) : CacheStorage :=
  caches.map (fun e => if e.1 == name then (name, cache) else e)

/-- The call `caches.keys()`: the names of the existing stores. -/
def cachesKeys (caches : CacheStorage) : List String :=
  caches.map Prod.fst

/-- Settlement of a promise whose value is not used. -/
inductive Settled where
  | fulfilled : Settled
  | rejected : Settled
deriving DecidableEq, Repr

/-- The call `caches.delete(name)`: rejects where the platform says so, otherwise
removes the named store. -/
def cachesDelete (env : Platform) (caches : CacheStorage) (name : String) :
    Settled × CacheStorage :=
  if env.deleteFails name then (Settled.rejected, caches)
  else (Settled.fulfilled, caches.filter (fun e => e.1 != name))

/-- The combinator `Promise.all`: fulfils when every member fulfils, rejects otherwise. -/
def promiseAll (ps : List Settled) : Settled :=
  if ps.all (fun p => p == Settled.fulfilled) then Settled.fulfilled else Settled.rejected

/-! ## JSON text -/

/-- Escape of one character inside a JSON string literal (QuoteJSONString). -/
def quoteJSONChar (c : Char) : List Char :=
  if c = '"' then ['\\', '"']
  else if c = '\\' then ['\\', '\\']
  else if c = '\n' then ['\\', 'n']
  else if c = '\r' then ['\\', 'r']
  else if c = '\t' then ['\\', 't']
  else [c]

/-- A string as a JSON string literal. -/
def quoteJSONString (s : String) : String :=
  String.mk (['"'] ++ s.data.flatMap quoteJSONChar ++ ['"'])

/-- The text `JSON.stringify` gives for an object whose members are strings, in member order. -/
def jsonStringify (members : List (String × String)) : String :=
  "\x7b" ++ ",".intercalate (members.map (fun m => quoteJSONString m.1 ++ ":" ++ quoteJSONString m.2))
    ++ "\x7d"

/-- Drops JSON white space. -/
def jsonSkipWs : List Char → List Char
  | c :: cs => if c = ' ' ∨ c = '\n' ∨ c = '\r' ∨ c = '\t' then jsonSkipWs cs else c :: cs
  | [] => []

/-- Reads the characters of a JSON string literal after its opening quote, up
to the closing quote; gives the text and the rest of the input. -/
def jsonStringBody : List Char → Option (List Char × List Char)
  | [] => none
  | '"' :: rest => some ([], rest)
  | '\\' :: e :: rest =>
    let ch : Option Char :=
      if e = '"' then some '"' else if e = '\\' then some '\\' else if e = '/' then some '/'
      else if e = 'n' then some '\n' else if e = 'r' then some '\r' else if e = 't' then some '\t'
      else none
    match ch, jsonStringBody rest with
    | some c, some (s, rest2) => some (c :: s, rest2)
    | _, _ => none
  | c :: rest =>
    match jsonStringBody rest with
    | some (s, rest2) => some (c :: s, rest2)
    | none => none

/-- Reads a JSON string literal. -/
def jsonString : List Char → Option (String × List Char)
  | '"' :: rest => (jsonStringBody rest).map (fun p => (String.mk p.1, p.2))
  | _ => none

/-- Reads the members of a JSON object after the opening brace. -/
def jsonMembers : Nat → List Char → Option (List (String × String))
  | 0, _ => none
  | fuel + 1, input =>
    match jsonString (jsonSkipWs input) with
    | none => none
    | some (key, r1) =>
      match jsonSkipWs r1 with
      | ':' :: r2 =>
        match jsonString (jsonSkipWs r2) with
        | none => none
        | some (value, r3) =>
          match jsonSkipWs r3 with
          | ',' :: r4 => (jsonMembers fuel r4).map (fun ms => (key, value) :: ms)
          | '\x7d' :: r4 => if jsonSkipWs r4 = [] then some [(key, value)] else none
          | _ => none
      | _ => none

/-- The function `JSON.parse` restricted to objects whose members are all strings: the
members in order, or `none` when the text is not such an object. -/
def jsonParseObject (text : String) : Option (List (String × String)) :=
  match jsonSkipWs text.data with
  | '\x7b' :: rest =>
    match jsonSkipWs rest with
    | '\x7d' :: r => if jsonSkipWs r = [] then some [] else none
    | r => jsonMembers text.length r
  | _ => none

/-! ## The offline page (sw.js lines 219-302) -/

/-- Text of the offline page template before the first `title` substitution (sw.js lines 220-224). -/
def offlinePageHead : String :=
"
    <!DOCTYPE html>
    <html>
      <head>
        <title>"

/-- Text of the offline page template between the two `title` substitutions (sw.js lines 224-281). -/
def offlinePageMiddle : String :=
" - Offline</title>
        <meta name=\"viewport\" content=\"width=device-width, initial-scale=1.0\">
        <style>
          body \x7b
            font-family: Arial, sans-serif;
            padding: 40px 20px;
            text-align: center;
            background: linear-gradient(135deg, #FF6A00 0%, #2E7D32 100%);
            color: white;
            min-height: 100vh;
            display: flex;
            flex-direction: column;
            justify-content: center;
            align-items: center;
          \x7d
          .container \x7b
            background: rgba(255,255,255,0.95);
            padding: 40px;
            border-radius: 20px;
            max-width: 500px;
            color: #333;
          \x7d
          h1 \x7b
            color: #2E7D32;
            margin-bottom: 20px;
            font-size: 2.5rem;
          \x7d
          p \x7b
            margin-bottom: 20px;
            line-height: 1.6;
          \x7d
          button \x7b
            background: #2E7D32;
            color: white;
            border: none;
            padding: 12px 30px;
            border-radius: 10px;
            font-size: 1rem;
            cursor: pointer;
            margin: 10px;
          \x7d
          button:hover \x7b
            background: #1B5E20;
          \x7d
          .app-buttons \x7b
            display: flex;
            flex-wrap: wrap;
            justify-content: center;
            gap: 10px;
            margin-top: 20px;
          \x7d
        </style>
      </head>
      <body>
        <div class=\"container\">
          <h1>🍽️ MealMoment</h1>
          <p><strong>You're offline right now.</strong></p>
          <p>The "

/-- Text of the offline page template after the second `title` substitution (sw.js lines 281-301). -/
def offlinePageTail : String :=
" will work when you're back online.</p>
          
          <div class=\"app-buttons\">
            <button onclick=\"location.reload()\">🔄 Retry Connection</button>
            <button onclick=\"window.location.href='/install.html'\">📱 Install Apps</button>
          </div>
          
          <p style=\"margin-top: 30px; font-size: 0.9rem; color: #666;\">
            Need help? Email: support@mealmoment.com
          </p>
        </div>
        
        <script>
          // Check if back online
          window.addEventListener('online', () => \x7b
            location.reload();
          \x7d);
        </script>
      </body>
    </html>
  "


/-- Generate offline page (sw.js lines 219-302): an HTML response whose text
is the template with the title substituted twice. -/
def getOfflinePage (title : String) : JsValue :=
  JsValue.response
    (newResponse (offlinePageHead ++ title ++ offlinePageMiddle ++ title ++ offlinePageTail)
      [("Content-Type", "text/html")])

/-! ## The three strategies (sw.js lines 124-216) -/

/-- Handle navigation to different apps (sw.js lines 124-167). The result is
the value the promise of the `async` function fulfils with. -/
def handleNavigationRequest (env : Platform) (request : Request) (caches : CacheStorage) :
    JsValue × CacheStorage :=
  let opened := cachesOpen caches CACHE_NAME
  let cache := opened.1
  let cachedPage := (cacheMatch env.origin cache request.url).await
  if cachedPage.truthy then
    (cachedPage, opened.2)
  else
    match env.fetch request.url with
    | some networkResponse =>
      (JsValue.response networkResponse,
        if networkResponse.ok then
          setCache opened.2 CACHE_NAME
            (cachePut env.origin cache request.url request.method networkResponse)
        else opened.2)
    | none =>
      let path := request.pathname
      if includes path "owner-dashboard" then
        ((jsOr (cacheMatch env.origin cache "/owner-dashboard.html")
            (getOfflinePage "Owner Dashboard")).await, opened.2)
      else if includes path "driver" then
        ((jsOr (cacheMatch env.origin cache "/driver.html")
            (getOfflinePage "Driver App")).await, opened.2)
      else if includes path "install" then
        ((jsOr (cacheMatch env.origin cache "/install.html")
            (getOfflinePage "Install Page")).await, opened.2)
      else
        ((jsOr (cacheMatch env.origin cache "/index.html")
            (getOfflinePage "MealMoment")).await, opened.2)

/-- The offline answer of the API strategy (sw.js lines 177-182). -/
def offlineApiResponse : Response :=
  newResponse
    (jsonStringify [("error", "offline"),
      ("message", "You are offline. Some features may not work.")])
    [("Content-Type", "application/json")]

/-- Handle API requests (sw.js lines 170-184). -/
def handleApiRequest (env : Platform) (request : Request) (caches : CacheStorage) :
    JsValue × CacheStorage :=
  match env.fetch request.url with
  | some networkResponse => (JsValue.response networkResponse, caches)
  | none => (JsValue.response offlineApiResponse, caches)

/-- The test `url.match(/\.(jpg|jpeg|png|gif|webp)$/i)` (sw.js line 206): the
text ends, letter case ignored, in a dot and one of the five extensions. -/
def matchesImageExtension (url : String) : Bool :=
  ["jpg", "jpeg", "png", "gif", "webp"].any
    (fun ext => ('.' :: ext.data).isSuffixOf (url.data.map Char.toLower))

/-- The plain-text offline answer (sw.js lines 212-214). -/
def offlineResourceResponse : Response :=
  newResponse "Offline - Resource not available" [("Content-Type", "text/plain")]

/-- Handle resource requests (CSS, JS, images) (sw.js lines 187-216). -/
def handleResourceRequest (env : Platform) (request : Request) (caches : CacheStorage) :
    JsValue × CacheStorage :=
  let opened := cachesOpen caches CACHE_NAME
  let cache := opened.1
  let cachedResponse := (cacheMatchRequest env.origin cache request).await
  if cachedResponse.truthy then
    (cachedResponse, opened.2)
  else
    match env.fetch request.url with
    | some networkResponse =>
      (JsValue.response networkResponse,
        if networkResponse.ok then
          setCache opened.2 CACHE_NAME
            (cachePut env.origin cache request.url request.method networkResponse)
        else opened.2)
    | none =>
      if matchesImageExtension request.url then
        let fallbackImage := (cacheMatch env.origin cache "/icon-192.png").await
        if fallbackImage.truthy then (fallbackImage, opened.2)
        else (JsValue.response offlineResourceResponse, opened.2)
      else (JsValue.response offlineResourceResponse, opened.2)

/-! ## The router (sw.js lines 95-121) -/

/-- The strategy a `respondWith` call hands the request to. -/
inductive Strategy where
  | navigation : Strategy
  | remoteApi : Strategy
  | genericResource : Strategy
deriving DecidableEq, Repr

/-- The fetch listener (sw.js lines 95-121): the `respondWith` calls it makes
for a request, in order. -/
def fetchListener (request : Request) : List Strategy :=
  if request.method != "GET" then []
  else if request.mode == "navigate" then [Strategy.navigation]
  else if includes request.hostname "firebase" || includes request.hostname "googleapis" then
    [Strategy.remoteApi]
  else [Strategy.genericResource]

/-- The handler behind each strategy. -/
def Strategy.handler : Strategy → Platform → Request → CacheStorage → JsValue × CacheStorage
  | Strategy.navigation => handleNavigationRequest
  | Strategy.remoteApi => handleApiRequest
  | Strategy.genericResource => handleResourceRequest

/-- A whole fetch event: `none` when the listener does not intercept the
request, otherwise the response value handed to the page and the storage
afterwards. -/
def fetchEvent (env : Platform) (request : Request) (caches : CacheStorage) :
    Option (JsValue × CacheStorage) :=
  match fetchListener request with
  | [] => none
  | s :: _ => some (s.handler env request caches)

/-! ## Install and activate (sw.js lines 34-92) -/

/-- The worker's state as the lifecycle handlers change it. -/
structure Worker where
  caches : CacheStorage
  skipWaitingCalled : Bool
  clientsClaimed : Bool
  errorLogged : Bool
  deleteCalls : List String
deriving DecidableEq, Repr

/-- A worker that has done nothing yet, over the given storage. -/
def Worker.fresh (caches : CacheStorage) : Worker :=
  { caches := caches, skipWaitingCalled := false, clientsClaimed := false,
    errorLogged := false, deleteCalls := [] }

/-- The chaining `p.then(f)`: `f` runs when `p` fulfils; a rejection passes through. -/
def thenDo (p : Settled × Worker) (f : Worker → Settled × Worker) : Settled × Worker :=
  match p.1 with
  | Settled.fulfilled => f p.2
  | Settled.rejected => p

/-- The chaining `p.catch(g)`: `g` runs when `p` rejects and its promise replaces the
rejection; a fulfilment passes through. -/
def catchDo (p : Settled × Worker) (g : Worker → Settled × Worker) : Settled × Worker :=
  match p.1 with
  | Settled.fulfilled => p
  | Settled.rejected => g p.2

/-- The response `cache.addAll` would store for a URL, when the URL can be
fetched with an ok status and the store accepts the response. -/
def addAllFetch (env : Platform) (url : String) : Option Response :=
  match env.fetch (resolveUrl env.origin url) with
  | some r => if r.ok && !putRejects env.origin url "GET" r then some r else none
  | none => none

/-- The call `cache.addAll(urls)`: every URL is fetched; when one fetch fails or is not
ok nothing is stored and the promise rejects, otherwise all are stored. -/
def cacheAddAll (env : Platform) (cache : Cache) (urls : List String) : Option Cache :=
  if urls.all (fun url => (addAllFetch env url).isSome) then
    some (urls.foldl
      (fun c url =>
        match addAllFetch env url with
        | some r => cachePut env.origin c url "GET" r
        | none => c) cache)
  else none

/-- One external resource of the install step (sw.js lines 48-56): fetched,
stored when ok, every failure caught and only warned about. -/
def cacheExternal (env : Platform) (cache : Cache) (url : String) : Cache :=
  match env.fetch url with
  | some response =>
    if response.ok then cachePut env.origin cache url "GET" response else cache
  | none => cache

/-- The install listener (sw.js lines 34-69): the settlement of the promise
given to `event.waitUntil` and the worker afterwards. -/
def install (env : Platform) (w : Worker) : Settled × Worker :=
  let opened := cachesOpen w.caches CACHE_NAME
  let addAll : Settled × Worker :=
    match cacheAddAll env opened.1 CORE_FILES with
    | some cache => (Settled.fulfilled, { w with caches := setCache opened.2 CACHE_NAME cache })
    | none => (Settled.rejected, { w with caches := opened.2 })
  catchDo
    (thenDo
      (thenDo addAll (fun w1 =>
        (Settled.fulfilled,
          { w1 with caches := (setCache w1.caches CACHE_NAME
              (EXTERNAL_RESOURCES.foldl (cacheExternal env) (cachesOpen w1.caches CACHE_NAME).1)) })))
      (fun w2 => (Settled.fulfilled, { w2 with skipWaitingCalled := true })))
    (fun w3 => (Settled.fulfilled, { w3 with errorLogged := true }))

/-- The deletions of the activate listener (sw.js lines 78-84): one promise
per store name, a `caches.delete` for each name other than `CACHE_NAME`. -/
def activateDeletions (env : Platform) : List String → Worker → List Settled × Worker
  | [], w => ([], w)
  | cacheName :: rest, w =>
    let first : Settled × Worker :=
      if cacheName != CACHE_NAME then
        ((cachesDelete env w.caches cacheName).1,
          { w with caches := (cachesDelete env w.caches cacheName).2,
                   deleteCalls := w.deleteCalls ++ [cacheName] })
      else (Settled.fulfilled, w)
    let others := activateDeletions env rest first.2
    (first.1 :: others.1, others.2)

/-- The activate listener (sw.js lines 72-92): the settlement of the promise
given to `event.waitUntil` and the worker afterwards. -/
def activate (env : Platform) (w : Worker) : Settled × Worker :=
  let deletions := activateDeletions env (cachesKeys w.caches) w
  thenDo (promiseAll deletions.1, deletions.2)
    (fun w1 => (Settled.fulfilled, { w1 with clientsClaimed := true }))


/-! ## Properties as the specification words them -/

/-- The URL ends, letter case ignored, in `.jpg`, `.jpeg`, `.png`, `.gif` or
`.webp`. -/
def endsInImageExtension (url : String) : Prop :=
  ∃ ext ∈ [".jpg", ".jpeg", ".png", ".gif", ".webp"],
    ext.data <:+ url.data.map Char.toLower

instance (url : String) : Decidable (endsInImageExtension url) := by
  unfold endsInImageExtension
  infer_instance

/-- The entry of the current store for a key, as a lookup after opening it. -/
def currentEntry (origin : String) (caches : CacheStorage) (key : String) : Option Response :=
  (cachesOpen caches CACHE_NAME).1.lookup (requestKey origin key)


/-! ## Inputs used in the evaluations -/

/-- A platform whose network is down: every fetch rejects. -/
def offlinePlatform : Platform :=
  { origin := "https://mealmoment.app", fetch := fun _ => none, deleteFails := fun _ => false }

/-- A "not found" response. -/
def notFoundResponse : Response :=
  { status := 404, headers := [], body := "Not Found" }

/-- A platform whose network answers every fetch with "not found". -/
def notFoundPlatform : Platform :=
  { origin := "https://mealmoment.app", fetch := fun _ => some notFoundResponse,
    deleteFails := fun _ => false }

/-- A stylesheet response. -/
def styleResponse : Response :=
  { status := 200, headers := [("Content-Type", "text/css")], body := "body \x7b\x7d" }

/-- A platform whose network answers every fetch with the stylesheet. -/
def onlinePlatform : Platform :=
  { origin := "https://mealmoment.app", fetch := fun _ => some styleResponse,
    deleteFails := fun _ => false }

/-- A platform on which the deletion of the store `mealmoment-v4` fails. -/
def deletionFailsPlatform : Platform :=
  { origin := "https://mealmoment.app", fetch := fun _ => none,
    deleteFails := fun name => name == "mealmoment-v4" }

/-- A navigation to the owner dashboard. -/
def ownerDashboardNavigation : Request :=
  { url := "https://mealmoment.app/owner-dashboard.html", method := "GET", mode := "navigate",
    hostname := "mealmoment.app", pathname := "/owner-dashboard.html" }

/-- A request for the Google Fonts stylesheet of `EXTERNAL_RESOURCES`. -/
def fontsRequest : Request :=
  { url := "https://fonts.googleapis.com/css2?family=Poppins:wght@400;500;600;700;800&family=Inter:wght@300;400;500;600&display=swap",
    method := "GET", mode := "no-cors", hostname := "fonts.googleapis.com", pathname := "/css2" }

/-- A storage whose current store holds the Google Fonts stylesheet. -/
def fontsCached : CacheStorage :=
  [(CACHE_NAME, [(fontsRequest.url, styleResponse)])]

/-- A write to a Firestore document. -/
def firestoreWrite : Request :=
  { url := "https://firestore.googleapis.com/v1/projects/mealmoment/documents/orders",
    method := "POST", mode := "cors", hostname := "firestore.googleapis.com",
    pathname := "/v1/projects/mealmoment/documents/orders" }

/-- A navigation whose host matches the remote-backend pattern. -/
def firebaseNavigation : Request :=
  { url := "https://mealmoment.firebaseapp.com/", method := "GET", mode := "navigate",
    hostname := "mealmoment.firebaseapp.com", pathname := "/" }

/-- A same-origin stylesheet request. -/
def styleRequest : Request :=
  { url := "https://mealmoment.app/style.css", method := "GET", mode := "no-cors",
    hostname := "mealmoment.app", pathname := "/style.css" }

/-- A same-origin request for a photo. -/
def photoRequest : Request :=
  { url := "https://mealmoment.app/photos/Dish.PNG", method := "GET", mode := "no-cors",
    hostname := "mealmoment.app", pathname := "/photos/Dish.PNG" }

/-- The icon as stored. -/
def iconResponse : Response :=
  { status := 200, headers := [("Content-Type", "image/png")], body := "PNG" }

/-- A storage whose current store holds the icon. -/
def iconCached : CacheStorage :=
  [(CACHE_NAME, [("https://mealmoment.app/icon-192.png", iconResponse)])]

/-- A script request of a browser extension, seen by the worker of the page. -/
def extensionRequest : Request :=
  { url := "chrome-extension://abcdefgh/inject.js", method := "GET", mode := "no-cors",
    hostname := "abcdefgh", pathname := "/inject.js" }

/-- A navigation to the main page with a fragment. -/
def menuNavigation : Request :=
  { url := "https://mealmoment.app/index.html#menu", method := "GET", mode := "navigate",
    hostname := "mealmoment.app", pathname := "/index.html" }

/-- A storage whose current store holds the main page. -/
def indexCached : CacheStorage :=
  [(CACHE_NAME, [("https://mealmoment.app/index.html", styleResponse)])]

/-- A storage with two stale stores next to the current one. -/
def staleStores : CacheStorage :=
  [("mealmoment-v3", []), ("mealmoment-v4", []), (CACHE_NAME, [])]


/-! ## The router -/

/-- C4: the router makes at most one `respondWith` call per fetch event, in
this priority order: a request whose method is not GET gets none; otherwise a
`navigate` request goes to the navigation strategy, whatever its host;
otherwise a host containing `firebase` or `googleapis` goes to the API
strategy; otherwise the request goes to the generic resource strategy. -/
theorem fetchListener_priority (request : Request) :
    (fetchListener request).length ≤ 1 ∧
    (request.method ≠ "GET" → fetchListener request = []) ∧
    (request.method = "GET" → request.mode = "navigate" →
      fetchListener request = [Strategy.navigation]) ∧
    (request.method = "GET" → request.mode ≠ "navigate" →
      (includes request.hostname "firebase" = true ∨
        includes request.hostname "googleapis" = true) →
      fetchListener request = [Strategy.remoteApi]) ∧
    (request.method = "GET" → request.mode ≠ "navigate" →
      includes request.hostname "firebase" = false →
      includes request.hostname "googleapis" = false →
      fetchListener request = [Strategy.genericResource]) := by
  refine ⟨?_, ?_, ?_, ?_, ?_⟩
  · unfold fetchListener
    split_ifs <;> simp
  · intro h
    simp [fetchListener, h]
  · intro h1 h2
    simp [fetchListener, h1, h2]
  · intro h1 h2 h3
    rcases h3 with h3 | h3 <;> simp [fetchListener, h1, h2, h3]
  · intro h1 h2 h3 h4
    simp [fetchListener, h1, h2, h3, h4]

/-- C4, evaluated: a POST to the backend is not intercepted, a navigation to a
backend host is handled as a navigation, the fonts stylesheet goes to the API
strategy and a same-origin stylesheet to the generic resource strategy. -/
theorem fetchListener_priority_witness :
    fetchListener firestoreWrite = [] ∧
    fetchListener firebaseNavigation = [Strategy.navigation] ∧
    fetchListener fontsRequest = [Strategy.remoteApi] ∧
    fetchListener styleRequest = [Strategy.genericResource] :=
  ⟨(fetchListener_priority firestoreWrite).2.1 (by decide),
   (fetchListener_priority firebaseNavigation).2.2.1 (by decide) (by decide),
   (fetchListener_priority fontsRequest).2.2.2.1 (by decide) (by decide) (Or.inr (by decide)),
   (fetchListener_priority styleRequest).2.2.2.2 (by decide) (by decide) (by decide) (by decide)⟩

/-! ## The API strategy -/

/-- C5: when the network fetch fails, `handleApiRequest` answers, whatever the
request, with a response whose `Content-Type` is `application/json` and whose
body parses as the object with exactly the two members `error: "offline"` and
`message: "You are offline. Some features may not work."`. -/
theorem handleApiRequest_offline (env : Platform) (request : Request) (caches : CacheStorage)
    (hfail : env.fetch request.url = none) :
    ∃ r : Response,
      (handleApiRequest env request caches).1 = JsValue.response r ∧
      r.headers = [("Content-Type", "application/json")] ∧
      r.body = "\x7b\"error\":\"offline\",\"message\":\"You are offline. Some features may not work.\"\x7d" ∧
      jsonParseObject r.body =
        some [("error", "offline"), ("message", "You are offline. Some features may not work.")] := by
  refine ⟨offlineApiResponse, ?_, ?_, ?_, ?_⟩
  · simp [handleApiRequest, hfail]
  · rfl
  · decide
  · decide

/-- C5, evaluated for the fonts stylesheet request with the network down. -/
theorem handleApiRequest_offline_witness :
    ∃ r : Response,
      (handleApiRequest offlinePlatform fontsRequest fontsCached).1 = JsValue.response r ∧
      r.headers = [("Content-Type", "application/json")] ∧
      r.body = "\x7b\"error\":\"offline\",\"message\":\"You are offline. Some features may not work.\"\x7d" ∧
      jsonParseObject r.body =
        some [("error", "offline"), ("message", "You are offline. Some features may not work.")] :=
  handleApiRequest_offline offlinePlatform fontsRequest fontsCached rfl

/-- C6: whatever the network outcome (an ok response, a response that is not
ok, a failure), `handleApiRequest` leaves the storage as it was, and when the
network answers the result is that very response. -/
theorem handleApiRequest_store_unchanged (env : Platform) (request : Request)
    (caches : CacheStorage) :
    (handleApiRequest env request caches).2 = caches ∧
    (∀ r : Response, env.fetch request.url = some r →
      (handleApiRequest env request caches).1 = JsValue.response r) := by
  constructor
  · unfold handleApiRequest
    cases env.fetch request.url <;> rfl
  · intro r hr
    simp [handleApiRequest, hr]

/-- C6, evaluated: a 404 from the network is returned as it is and the
storage, which holds an entry for the URL, stays as it was. -/
theorem handleApiRequest_store_unchanged_witness :
    (handleApiRequest notFoundPlatform fontsRequest fontsCached).2 = fontsCached ∧
    (handleApiRequest notFoundPlatform fontsRequest fontsCached).1 =
      JsValue.response notFoundResponse :=
  ⟨(handleApiRequest_store_unchanged notFoundPlatform fontsRequest fontsCached).1,
   (handleApiRequest_store_unchanged notFoundPlatform fontsRequest fontsCached).2 _ rfl⟩

/-- C10: a GET request that is not a navigation and whose host contains
`googleapis` or `firebase` is never answered from the store, whatever the
store holds: the answer is the network response when the fetch succeeds and,
when it fails, a response of type `application/json` whose body is the JSON
text of the offline error, with its two members `error` and `message`; the
storage is untouched. -/
theorem backend_request_never_from_store (env : Platform) (request : Request)
    (caches : CacheStorage)
    (hget : request.method = "GET") (hnav : request.mode ≠ "navigate")
    (hhost : includes request.hostname "googleapis" = true ∨
      includes request.hostname "firebase" = true) :
    (∀ networkResponse : Response, env.fetch request.url = some networkResponse →
      fetchEvent env request caches = some (JsValue.response networkResponse, caches)) ∧
    (env.fetch request.url = none →
      ∃ r : Response,
        fetchEvent env request caches = some (JsValue.response r, caches) ∧
        r.status = 200 ∧
        r.headers = [("Content-Type", "application/json")] ∧
        r.body = "\x7b\"error\":\"offline\",\"message\":\"You are offline. Some features may not work.\"\x7d" ∧
        jsonParseObject r.body =
          some [("error", "offline"),
            ("message", "You are offline. Some features may not work.")]) ∧
    fetchEvent env request caches =
      some (match env.fetch request.url with
            | some networkResponse => JsValue.response networkResponse
            | none => JsValue.response offlineApiResponse,
            caches) := by
  have hroute : fetchListener request = [Strategy.remoteApi] := by
    rcases hhost with h | h <;> simp [fetchListener, hget, hnav, h]
  have hev : fetchEvent env request caches = some (handleApiRequest env request caches) := by
    unfold fetchEvent
    rw [hroute]
    rfl
  refine ⟨?_, ?_, ?_⟩
  · intro networkResponse hnet
    rw [hev]
    simp only [handleApiRequest, hnet]
  · intro hfail
    refine ⟨offlineApiResponse, ?_, rfl, rfl, by decide, by decide⟩
    rw [hev]
    simp only [handleApiRequest, hfail]
  · rw [hev]
    unfold handleApiRequest
    cases env.fetch request.url <;> rfl

/-- C10, evaluated: with the Google Fonts stylesheet in the store and the
network down, the request for it gets the JSON offline answer, which is not
the stored entry; with the network up it gets the network response. -/
theorem backend_request_never_from_store_witness :
    currentEntry offlinePlatform.origin fontsCached fontsRequest.url = some styleResponse ∧
    (∃ r : Response,
      fetchEvent offlinePlatform fontsRequest fontsCached =
        some (JsValue.response r, fontsCached) ∧
      r.status = 200 ∧
      r.headers = [("Content-Type", "application/json")] ∧
      r.body = "\x7b\"error\":\"offline\",\"message\":\"You are offline. Some features may not work.\"\x7d" ∧
      jsonParseObject r.body =
        some [("error", "offline"),
          ("message", "You are offline. Some features may not work.")]) ∧
    fetchEvent offlinePlatform fontsRequest fontsCached ≠
      some (JsValue.response styleResponse, fontsCached) ∧
    fetchEvent notFoundPlatform fontsRequest fontsCached =
      some (JsValue.response notFoundResponse, fontsCached) :=
  ⟨by decide,
   (backend_request_never_from_store offlinePlatform fontsRequest fontsCached
     (by decide) (by decide) (Or.inl (by decide))).2.1 rfl,
   by
     rw [(backend_request_never_from_store offlinePlatform fontsRequest fontsCached
       (by decide) (by decide) (Or.inl (by decide))).2.2]
     decide,
   (backend_request_never_from_store notFoundPlatform fontsRequest fontsCached
     (by decide) (by decide) (Or.inl (by decide))).1 notFoundResponse rfl⟩

/-! ## The navigation strategy -/

/-- C1, evaluated at the failing input: offline, with an empty storage, the
navigation to the owner dashboard resolves to `undefined`, not to the offline
page `getOfflinePage "Owner Dashboard"`. The Promise returned by `cache.match`
is truthy, so the right operand of `||` is never taken. -/
theorem handleNavigationRequest_owner_dashboard_undefined :
    (cachesOpen [] CACHE_NAME).1.lookup
        (resolveUrl offlinePlatform.origin ownerDashboardNavigation.url) = none ∧
    (cachesOpen [] CACHE_NAME).1.lookup
        (resolveUrl offlinePlatform.origin "/owner-dashboard.html") = none ∧
    offlinePlatform.fetch ownerDashboardNavigation.url = none ∧
    includes ownerDashboardNavigation.pathname "owner-dashboard" = true ∧
    (handleNavigationRequest offlinePlatform ownerDashboardNavigation []).1 = JsValue.undefined ∧
    (handleNavigationRequest offlinePlatform ownerDashboardNavigation []).1 ≠
      getOfflinePage "Owner Dashboard" := by
  refine ⟨by decide, by decide, rfl, by decide, by decide, ?_⟩
  have h : (handleNavigationRequest offlinePlatform ownerDashboardNavigation []).1
      = JsValue.undefined := by decide
  rw [h]
  simp [getOfflinePage]

/-! ## Install -/

/-- A promise with a `catch` handler that always fulfils, fulfils. -/
theorem catchDo_fulfils (p : Settled × Worker) (g : Worker → Settled × Worker)
    (hg : ∀ w, (g w).1 = Settled.fulfilled) : (catchDo p g).1 = Settled.fulfilled := by
  unfold catchDo
  split
  · assumption
  · exact hg _

/-- The promise the install listener gives to `event.waitUntil` fulfils in
every case: the final `catch` turns a rejection into a fulfilment. -/
theorem install_always_fulfils (env : Platform) (w : Worker) :
    (install env w).1 = Settled.fulfilled := by
  unfold install
  exact catchDo_fulfils _ _ (fun _ => rfl)

/-- C2, evaluated at the failing input: with no required asset fetchable,
`cache.addAll` rejects, the error is logged and `skipWaiting` is not called,
yet the promise given to `event.waitUntil` fulfils, so the install succeeds. -/
theorem install_addAll_rejects_still_fulfils :
    cacheAddAll offlinePlatform (cachesOpen [] CACHE_NAME).1 CORE_FILES = none ∧
    (install offlinePlatform (Worker.fresh [])).1 = Settled.fulfilled ∧
    (install offlinePlatform (Worker.fresh [])).2.errorLogged = true ∧
    (install offlinePlatform (Worker.fresh [])).2.skipWaitingCalled = false ∧
    (install offlinePlatform (Worker.fresh [])).2.caches = [(CACHE_NAME, [])] := by
  refine ⟨by decide, install_always_fulfils _ _, by decide, by decide, by decide⟩

/-! ## Lemmas on strings and stores -/

/-- The substring test holds exactly when the second list occurs as a
contiguous block of the first. -/
theorem includesChars_iff (s sub : List Char) :
    includesChars s sub = true ↔ sub <:+: s := by
  induction s with
  | nil => simp [includesChars]
  | cons c s ih =>
    rw [includesChars, Bool.or_eq_true, ih, List.infix_cons_iff, List.isPrefixOf_iff_prefix]

/-- After `caches.open(name)` the storage holds the opened store under the name. -/
theorem lookup_cachesOpen (caches : CacheStorage) (name : String) :
    (cachesOpen caches name).2.lookup name = some (cachesOpen caches name).1 := by
  unfold cachesOpen
  split
  · assumption
  · rename_i h
    simp [List.lookup_append, h]

/-- Unfolding of `setCache` on a nonempty storage. -/
theorem setCache_cons (k : String) (c : Cache) (rest : CacheStorage) (name : String)
    (new : Cache) :
    setCache ((k, c) :: rest) name new =
      (if k == name then (name, new) else (k, c)) :: setCache rest name new := rfl

/-- Writing a store back under a name the storage has makes it the named store. -/
theorem lookup_setCache_self (caches : CacheStorage) (name : String) (old new : Cache)
    (h : caches.lookup name = some old) : (setCache caches name new).lookup name = some new := by
  induction caches with
  | nil => simp at h
  | cons e rest ih =>
    obtain ⟨k, c⟩ := e
    rw [setCache_cons]
    by_cases hk : k = name
    · subst hk
      simp
    · have hk2 : (name == k) = false := by simpa using fun h2 => hk h2.symm
      have hk3 : (k == name) = false := by simpa using hk
      rw [List.lookup_cons, hk2] at h
      rw [hk3]
      simp only [Bool.false_eq_true, if_false]
      rw [List.lookup_cons, hk2]
      exact ih h

/-- Writing a store back under one name leaves the stores of other names. -/
theorem lookup_setCache_other (caches : CacheStorage) (name other : String) (new : Cache)
    (h : other ≠ name) : (setCache caches name new).lookup other = caches.lookup other := by
  induction caches with
  | nil => rfl
  | cons e rest ih =>
    obtain ⟨k, c⟩ := e
    rw [setCache_cons]
    by_cases hk : k = name
    · subst hk
      have hk2 : (other == k) = false := by simpa using h
      simp only [beq_self_eq_true, if_true]
      rw [List.lookup_cons, List.lookup_cons, hk2]
      exact ih
    · have hk3 : (k == name) = false := by simpa using hk
      rw [hk3]
      simp only [Bool.false_eq_true, if_false]
      rw [List.lookup_cons, List.lookup_cons, ih]

/-- Opening the current store after it was written back gives what was written. -/
theorem cachesOpen_setCache (caches : CacheStorage) (name : String) (new : Cache) :
    (cachesOpen (setCache (cachesOpen caches name).2 name new) name).1 = new := by
  have h := lookup_setCache_self _ name _ new (lookup_cachesOpen caches name)
  unfold cachesOpen at h ⊢
  split <;> simp_all

/-- Removing the entries of one key leaves the lookups of the other keys. -/
theorem lookup_filter_ne (cache : Cache) (key other : String) (h : other ≠ key) :
    (cache.filter (fun e => e.1 != key)).lookup other = cache.lookup other := by
  induction cache with
  | nil => rfl
  | cons e rest ih =>
    obtain ⟨k, r⟩ := e
    by_cases hk : k = key
    · subst hk
      have hk2 : (other == k) = false := by simpa using h
      simpa [List.filter_cons, List.lookup_cons, hk2] using ih
    · have hk3 : (k != key) = true := by simpa using hk
      simp only [List.filter_cons, hk3, if_true, List.lookup_cons]
      cases other == k
      · simpa using ih
      · rfl

/-- What `cache.put` refuses, spelled out. -/
theorem putRejects_eq_true_iff (origin url method : String) (r : Response) :
    putRejects origin url method r = true ↔
      (httpScheme (resolveUrl origin url) = false ∨ method ≠ "GET" ∨ r.status = 206 ∨
        varyStar r = true) := by
  simp [putRejects, or_assoc]

/-- A pair the store accepts is found under the request's key after `cache.put`. -/
theorem lookup_cachePut_self (origin : String) (cache : Cache) (url method : String)
    (r : Response) (h : putRejects origin url method r = false) :
    (cachePut origin cache url method r).lookup (requestKey origin url) = some r := by
  simp [cachePut, h]

/-- The entries of the other keys are the same after `cache.put`. -/
theorem lookup_cachePut_other (origin : String) (cache : Cache) (url method other : String)
    (r : Response) (h : other ≠ requestKey origin url) :
    (cachePut origin cache url method r).lookup other = cache.lookup other := by
  unfold cachePut
  split
  · rfl
  · have h2 : (other == requestKey origin url) = false := by simpa using h
    simp only [List.lookup_cons, h2]
    exact lookup_filter_ne cache _ other h

/-- A refused pair leaves the store as it was. -/
theorem cachePut_refused (origin : String) (cache : Cache) (url method : String)
    (r : Response) (h : putRejects origin url method r = true) :
    cachePut origin cache url method r = cache := by
  simp [cachePut, h]

/-- Awaiting `cache.match` on a key the store lacks gives `undefined`. -/
theorem await_cacheMatch_none (origin : String) (cache : Cache) (key : String)
    (h : cache.lookup (requestKey origin key) = none) :
    (cacheMatch origin cache key).await = JsValue.undefined := by
  unfold cacheMatch
  rw [h]
  rfl

/-- Awaiting `cache.match` on a key the store has gives the stored response. -/
theorem await_cacheMatch_some (origin : String) (cache : Cache) (key : String) (r : Response)
    (h : cache.lookup (requestKey origin key) = some r) :
    (cacheMatch origin cache key).await = JsValue.response r := by
  unfold cacheMatch
  rw [h]
  rfl

/-- Awaiting `cache.match` on a request whose URL the store lacks gives
`undefined`, whatever the method. -/
theorem await_cacheMatchRequest_none (origin : String) (cache : Cache) (request : Request)
    (h : cache.lookup (requestKey origin request.url) = none) :
    (cacheMatchRequest origin cache request).await = JsValue.undefined := by
  unfold cacheMatchRequest
  split
  · rfl
  · exact await_cacheMatch_none _ _ _ h

/-- The regular expression test of the script is the property "ends in an
image extension". -/
theorem matchesImageExtension_iff (url : String) :
    matchesImageExtension url = true ↔ endsInImageExtension url := by
  simp [matchesImageExtension, endsInImageExtension]

/-! ## The generic resource strategy -/

/-- C7: for a request that is absent from the store and whose network fetch
fails, `handleResourceRequest` returns the cached icon entry when the URL ends
(letter case ignored) in `.jpg`, `.jpeg`, `.png`, `.gif` or `.webp` and the
store has an entry for `/icon-192.png`; in every other case it returns the
plain-text answer `Offline - Resource not available` of type `text/plain`. -/
theorem handleResourceRequest_offline_fallback (env : Platform) (request : Request)
    (caches : CacheStorage)
    (habsent : currentEntry env.origin caches request.url = none)
    (hfail : env.fetch request.url = none) :
    (∀ icon : Response, endsInImageExtension request.url →
      currentEntry env.origin caches "/icon-192.png" = some icon →
      (handleResourceRequest env request caches).1 = JsValue.response icon) ∧
    (¬ (endsInImageExtension request.url ∧
        (currentEntry env.origin caches "/icon-192.png").isSome = true) →
      (handleResourceRequest env request caches).1 = JsValue.response offlineResourceResponse) ∧
    offlineResourceResponse.body = "Offline - Resource not available" ∧
    offlineResourceResponse.headers = [("Content-Type", "text/plain")] := by
  unfold currentEntry at habsent
  have hmiss := await_cacheMatchRequest_none _ _ request habsent
  refine ⟨?_, ?_, rfl, rfl⟩
  · intro icon himg hicon
    unfold currentEntry at hicon
    have himg2 := (matchesImageExtension_iff request.url).mpr himg
    unfold handleResourceRequest
    simp only [hmiss, hfail, himg2, await_cacheMatch_some _ _ _ _ hicon, JsValue.truthy,
      Bool.false_eq_true, if_false, if_true]
  · intro hnot
    unfold currentEntry at hnot
    unfold handleResourceRequest
    by_cases himg : matchesImageExtension request.url = true
    · have hicon : (cachesOpen caches CACHE_NAME).1.lookup
          (requestKey env.origin "/icon-192.png") = none := by
        cases hl : (cachesOpen caches CACHE_NAME).1.lookup (requestKey env.origin "/icon-192.png")
        · rfl
        · exact absurd ⟨(matchesImageExtension_iff request.url).mp himg, by rw [hl]; rfl⟩ hnot
      simp only [hmiss, hfail, himg, await_cacheMatch_none _ _ _ hicon, JsValue.truthy,
        Bool.false_eq_true, if_false, if_true]
    · have himg2 : matchesImageExtension request.url = false := by simpa using himg
      simp only [hmiss, hfail, himg2, JsValue.truthy, Bool.false_eq_true, if_false]

/-- Opening the current store twice is opening it once. -/
theorem cachesOpen_cachesOpen (caches : CacheStorage) (name : String) :
    cachesOpen (cachesOpen caches name).2 name = cachesOpen caches name := by
  have h := lookup_cachesOpen caches name
  generalize cachesOpen caches name = opened at h
  unfold cachesOpen
  rw [h]

/-- C7, evaluated offline over a store that holds the icon: a request for a
photo ending in `.PNG` gets the icon, a stylesheet request the plain text. -/
theorem handleResourceRequest_offline_fallback_witness :
    (handleResourceRequest offlinePlatform photoRequest iconCached).1 =
      JsValue.response iconResponse ∧
    (handleResourceRequest offlinePlatform styleRequest iconCached).1 =
      JsValue.response offlineResourceResponse :=
  ⟨(handleResourceRequest_offline_fallback offlinePlatform photoRequest iconCached
      (by decide) rfl).1 iconResponse
      ((matchesImageExtension_iff photoRequest.url).mp (by decide)) (by decide),
   (handleResourceRequest_offline_fallback offlinePlatform styleRequest iconCached
      (by decide) rfl).2.1
      (fun h => absurd ((matchesImageExtension_iff styleRequest.url).mpr h.1) (by decide))⟩

/-- C9, refuted as stated: the network answers a stylesheet request that is
absent from the store with a 404; the response is returned but no copy is
stored, a later lookup of the request finds nothing. -/
theorem handleResourceRequest_not_ok_not_stored :
    currentEntry notFoundPlatform.origin [] styleRequest.url = none ∧
    notFoundPlatform.fetch styleRequest.url = some notFoundResponse ∧
    (handleResourceRequest notFoundPlatform styleRequest []).1 =
      JsValue.response notFoundResponse ∧
    currentEntry notFoundPlatform.origin
      (handleResourceRequest notFoundPlatform styleRequest []).2 styleRequest.url = none := by
  refine ⟨by decide, rfl, by decide, by decide⟩

/-- C9, amended: for a request that is absent from the store and whose network
fetch returns a response, `handleResourceRequest` returns that response; when
the response is ok and the store accepts the pair (a GET request with an
`http` or `https` URL, a status other than 206, no `Vary: *`), a copy is
stored under the request, so that a later lookup of the request gives that
response, and the entries of all other keys are unchanged; when the response
is not ok, or the store refuses the pair, nothing is stored. -/
theorem handleResourceRequest_network_success (env : Platform) (request : Request)
    (caches : CacheStorage) (r : Response)
    (habsent : currentEntry env.origin caches request.url = none)
    (hnet : env.fetch request.url = some r) :
    (handleResourceRequest env request caches).1 = JsValue.response r ∧
    (r.ok = true → request.method = "GET" →
      httpScheme (resolveUrl env.origin request.url) = true →
      r.status ≠ 206 → varyStar r = false →
      currentEntry env.origin (handleResourceRequest env request caches).2 request.url = some r ∧
      ∀ key : String, key ≠ requestKey env.origin request.url →
        (cachesOpen (handleResourceRequest env request caches).2 CACHE_NAME).1.lookup key =
          (cachesOpen caches CACHE_NAME).1.lookup key) ∧
    (r.ok = false →
      (handleResourceRequest env request caches).2 = (cachesOpen caches CACHE_NAME).2 ∧
      currentEntry env.origin (handleResourceRequest env request caches).2 request.url = none) ∧
    ((httpScheme (resolveUrl env.origin request.url) = false ∨ request.method ≠ "GET" ∨
        r.status = 206 ∨ varyStar r = true) →
      currentEntry env.origin (handleResourceRequest env request caches).2 request.url = none ∧
      ∀ key : String,
        (cachesOpen (handleResourceRequest env request caches).2 CACHE_NAME).1.lookup key =
          (cachesOpen caches CACHE_NAME).1.lookup key) := by
  unfold currentEntry at habsent
  have hmiss := await_cacheMatchRequest_none _ _ request habsent
  have hres : handleResourceRequest env request caches =
      (JsValue.response r,
        if r.ok then
          setCache (cachesOpen caches CACHE_NAME).2 CACHE_NAME
            (cachePut env.origin (cachesOpen caches CACHE_NAME).1 request.url request.method r)
        else (cachesOpen caches CACHE_NAME).2) := by
    unfold handleResourceRequest
    simp only [hmiss, hnet, JsValue.truthy, Bool.false_eq_true, if_false]
  rw [hres]
  refine ⟨rfl, ?_, ?_, ?_⟩
  · intro hok hget hscheme hstatus hvary
    have hput : putRejects env.origin request.url request.method r = false := by
      simp [putRejects, hget, hscheme, hstatus, hvary]
    simp only [hok, if_true, currentEntry, cachesOpen_setCache]
    exact ⟨lookup_cachePut_self _ _ _ _ _ hput,
      fun key hkey => lookup_cachePut_other _ _ _ _ _ _ hkey⟩
  · intro hok
    simp only [hok, Bool.false_eq_true, if_false, currentEntry, cachesOpen_cachesOpen]
    exact ⟨trivial, habsent⟩
  · intro hrefused
    have hput := (putRejects_eq_true_iff env.origin request.url request.method r).mpr hrefused
    cases hok : r.ok
    · simp only [Bool.false_eq_true, if_false, currentEntry, cachesOpen_cachesOpen]
      exact ⟨habsent, fun _ => trivial⟩
    · simp only [if_true, currentEntry, cachesOpen_setCache, cachePut_refused _ _ _ _ _ hput]
      exact ⟨habsent, fun _ => trivial⟩

/-- C9 as amended, evaluated: a 200 stylesheet response to an `https` request
is returned and is found in the store afterwards; the same response to the
script request of a browser extension is returned but not stored. -/
theorem handleResourceRequest_network_success_witness :
    (handleResourceRequest onlinePlatform styleRequest iconCached).1 =
      JsValue.response styleResponse ∧
    currentEntry onlinePlatform.origin
      (handleResourceRequest onlinePlatform styleRequest iconCached).2 styleRequest.url =
        some styleResponse ∧
    (handleResourceRequest onlinePlatform extensionRequest iconCached).1 =
      JsValue.response styleResponse ∧
    currentEntry onlinePlatform.origin
      (handleResourceRequest onlinePlatform extensionRequest iconCached).2
        extensionRequest.url = none :=
  ⟨(handleResourceRequest_network_success onlinePlatform styleRequest iconCached styleResponse
      (by decide) rfl).1,
   ((handleResourceRequest_network_success onlinePlatform styleRequest iconCached styleResponse
      (by decide) rfl).2.1 (by decide) (by decide) (by decide) (by decide) (by decide)).1,
   (handleResourceRequest_network_success onlinePlatform extensionRequest iconCached
      styleResponse (by decide) rfl).1,
   ((handleResourceRequest_network_success onlinePlatform extensionRequest iconCached
      styleResponse (by decide) rfl).2.2.2 (Or.inl (by decide))).1⟩

/-- The store's matching leaves the fragment out: a navigation to
`/index.html#menu` is answered by the entry stored for `/index.html`, with
the network down and the storage unchanged. -/
theorem handleNavigationRequest_fragment_hit :
    handleNavigationRequest offlinePlatform menuNavigation indexCached =
      (JsValue.response styleResponse, indexCached) := by
  decide

/-! ## The navigation fallback -/

/-- The Promise `cache.match` returns is truthy, whatever the store holds. -/
theorem cacheMatch_truthy (origin : String) (cache : Cache) (key : String) :
    (cacheMatch origin cache key).truthy = true := rfl

/-- Offline, on a miss, a navigation whose path contains `owner-dashboard`
resolves to the cached owner page when the store has it and to `undefined`
when it has not: the offline page is produced in neither case. -/
theorem handleNavigationRequest_owner_dashboard_offline (env : Platform) (request : Request)
    (caches : CacheStorage)
    (hmiss : currentEntry env.origin caches request.url = none)
    (hfail : env.fetch request.url = none)
    (hpath : includes request.pathname "owner-dashboard" = true) :
    (handleNavigationRequest env request caches).1 =
      match currentEntry env.origin caches "/owner-dashboard.html" with
      | some page => JsValue.response page
      | none => JsValue.undefined := by
  unfold currentEntry at hmiss ⊢
  unfold handleNavigationRequest
  simp only [await_cacheMatch_none _ _ _ hmiss, hfail, hpath, JsValue.truthy, Bool.false_eq_true,
    if_false, if_true, jsOr, cacheMatch_truthy]
  cases h : (cachesOpen caches CACHE_NAME).1.lookup (requestKey env.origin "/owner-dashboard.html")
  · exact await_cacheMatch_none _ _ _ h
  · exact await_cacheMatch_some _ _ _ _ h

/-! ## Activate -/

/-- The deletions call `caches.delete` for every name other than `CACHE_NAME`,
in order, whether or not earlier deletions fail. -/
theorem activateDeletions_deleteCalls (env : Platform) (names : List String) (w : Worker) :
    (activateDeletions env names w).2.deleteCalls =
      w.deleteCalls ++ names.filter (fun n => n != CACHE_NAME) := by
  induction names generalizing w with
  | nil => simp [activateDeletions]
  | cons n rest ih =>
    unfold activateDeletions
    simp only [ih, List.filter_cons]
    by_cases hn : (n != CACHE_NAME) = true
    · simp [hn]
    · simp [hn]

/-- The deletions touch nothing but the storage and the record of calls. -/
theorem activateDeletions_clientsClaimed (env : Platform) (names : List String) (w : Worker) :
    (activateDeletions env names w).2.clientsClaimed = w.clientsClaimed := by
  induction names generalizing w with
  | nil => simp [activateDeletions]
  | cons n rest ih =>
    unfold activateDeletions
    simp only [ih]
    split <;> rfl

/-- The storage after the deletions: a store is gone exactly when its name is
among the names, is not `CACHE_NAME`, and its deletion does not fail. -/
theorem activateDeletions_caches (env : Platform) (names : List String) (w : Worker) :
    (activateDeletions env names w).2.caches =
      w.caches.filter
        (fun e => !(names.contains e.1 && e.1 != CACHE_NAME && !env.deleteFails e.1)) := by
  induction names generalizing w with
  | nil => simp [activateDeletions]
  | cons n rest ih =>
    unfold activateDeletions
    simp only [ih]
    by_cases hn : (n != CACHE_NAME) = true
    · by_cases hf : env.deleteFails n = true
      · simp only [hn, if_true, cachesDelete, hf]
        apply List.filter_congr
        intro e _
        by_cases he : e.1 = n
        · simp [he, hf]
        · simp [he]
      · simp only [hn, if_true, cachesDelete, hf, Bool.false_eq_true, if_false, List.filter_filter]
        apply List.filter_congr
        intro e _
        by_cases he : e.1 = n
        · have hn2 : n ≠ CACHE_NAME := by simpa using hn
          simp [he, hf, hn2]
        · simp [he]
    · simp only [hn, Bool.false_eq_true, if_false]
      apply List.filter_congr
      intro e _
      have hn2 : n = CACHE_NAME := by simpa using hn
      by_cases he : e.1 = n
      · simp [he, hn2]
      · simp [he]

/-- The promises of the deletions all fulfil exactly when no deletion of a
name other than `CACHE_NAME` fails. -/
theorem promiseAll_activateDeletions (env : Platform) (names : List String) (w : Worker) :
    promiseAll (activateDeletions env names w).1 = Settled.fulfilled ↔
      ∀ n ∈ names, n ≠ CACHE_NAME → env.deleteFails n = false := by
  induction names generalizing w with
  | nil => simp [activateDeletions, promiseAll]
  | cons n rest ih =>
    unfold activateDeletions
    have ih2 := fun w2 => ih w2
    simp only [promiseAll, List.all_cons, Bool.and_eq_true, List.mem_cons, forall_eq_or_imp] at ih2 ⊢
    by_cases hn : (n != CACHE_NAME) = true
    · have hn2 : n ≠ CACHE_NAME := by simpa using hn
      by_cases hf : env.deleteFails n = true
      · simp [hn, cachesDelete, hf, hn2]
      · have hf2 : env.deleteFails n = false := by simpa using hf
        simp only [hn, if_true, cachesDelete, hf2, Bool.false_eq_true, if_false]
        have := ih2 { w with caches := w.caches.filter (fun e => e.1 != n),
                             deleteCalls := w.deleteCalls ++ [n] }
        simp only [ite_eq_left_iff, Bool.not_eq_true, reduceCtorEq, imp_false,
          Bool.not_eq_false] at this ⊢
        simp [this, hn2]
    · have hn2 : n = CACHE_NAME := by simpa using hn
      simp only [hn, Bool.false_eq_true, if_false]
      have := ih2 w
      simp only [ite_eq_left_iff, Bool.not_eq_true, reduceCtorEq, imp_false,
        Bool.not_eq_false] at this ⊢
      simp [this, hn2]

/-- The activate listener in closed form: the deletions, then `clients.claim`
when they all fulfilled. -/
theorem activate_eq (env : Platform) (w : Worker) :
    activate env w =
      if promiseAll (activateDeletions env (cachesKeys w.caches) w).1 = Settled.fulfilled then
        (Settled.fulfilled,
          { (activateDeletions env (cachesKeys w.caches) w).2 with clientsClaimed := true })
      else (Settled.rejected, (activateDeletions env (cachesKeys w.caches) w).2) := by
  unfold activate thenDo
  cases h : promiseAll (activateDeletions env (cachesKeys w.caches) w).1 <;> simp [h]

/-- The storage after activate: the stores whose deletion was due and did not
fail are gone, the others stay. -/
theorem activate_caches (env : Platform) (w : Worker) :
    (activate env w).2.caches =
      w.caches.filter (fun e => e.1 == CACHE_NAME || env.deleteFails e.1) := by
  have h : (activate env w).2.caches =
      (activateDeletions env (cachesKeys w.caches) w).2.caches := by
    rw [activate_eq]
    split <;> rfl
  rw [h, activateDeletions_caches]
  apply List.filter_congr
  intro e he
  have hmem : e.1 ∈ cachesKeys w.caches := List.mem_map_of_mem Prod.fst he
  by_cases h1 : e.1 = CACHE_NAME
  · simp [h1]
  · have hb1 : (e.1 == CACHE_NAME) = false := by simpa using h1
    have hb2 : (e.1 != CACHE_NAME) = true := by simpa using h1
    have hb3 : (cachesKeys w.caches).contains e.1 = true := by simpa using hmem
    rw [hb1, hb2, hb3]
    cases env.deleteFails e.1 <;> rfl

/-- The completion signal of activate succeeds exactly when no deletion of a
stale store fails. -/
theorem activate_fulfilled_iff (env : Platform) (w : Worker) :
    (activate env w).1 = Settled.fulfilled ↔
      ∀ n ∈ cachesKeys w.caches, n ≠ CACHE_NAME → env.deleteFails n = false := by
  rw [← promiseAll_activateDeletions env (cachesKeys w.caches) w, activate_eq]
  split
  · simp_all
  · simp_all

/-- After activate, `clients.claim` has been called when it had been called
before or when the completion signal succeeds. -/
theorem activate_clientsClaimed (env : Platform) (w : Worker) :
    (activate env w).2.clientsClaimed =
      (w.clientsClaimed || decide ((activate env w).1 = Settled.fulfilled)) := by
  have hclaim := activateDeletions_clientsClaimed env (cachesKeys w.caches) w
  rw [activate_eq]
  split
  · simp
  · simp [hclaim]

/-- The `caches.delete` calls of activate: one for every stale store name. -/
theorem activate_deleteCalls (env : Platform) (w : Worker) :
    (activate env w).2.deleteCalls =
      w.deleteCalls ++ (cachesKeys w.caches).filter (fun n => n != CACHE_NAME) := by
  have hcalls := activateDeletions_deleteCalls env (cachesKeys w.caches) w
  rw [activate_eq]
  split
  · simpa using hcalls
  · simpa using hcalls

/-- A duplicate-free list that contains `a` and nothing else is `[a]`. -/
theorem eq_singleton_of_nodup {α : Type} (l : List α) (a : α) (hnd : l.Nodup)
    (hmem : a ∈ l) (hall : ∀ x ∈ l, x = a) : l = [a] := by
  cases l with
  | nil => simp at hmem
  | cons x t =>
    have hx : x = a := hall x (List.mem_cons_self x t)
    subst hx
    cases t with
    | nil => rfl
    | cons y t2 =>
      have hy : y = x := hall y (by simp)
      subst hy
      simp at hnd

/-- C3: when the current store is among the existing stores and every deletion
succeeds, activate completes, and afterwards the set of store names is exactly
`CACHE_NAME`: the current store is kept with its content and every store of
another name is absent. -/
theorem activate_leaves_only_current (env : Platform) (w : Worker)
    (hcur : CACHE_NAME ∈ cachesKeys w.caches)
    (hdel : ∀ n ∈ cachesKeys w.caches, n ≠ CACHE_NAME → env.deleteFails n = false) :
    (activate env w).1 = Settled.fulfilled ∧
    (∀ n : String, n ∈ cachesKeys (activate env w).2.caches ↔ n = CACHE_NAME) ∧
    (activate env w).2.caches.lookup CACHE_NAME = w.caches.lookup CACHE_NAME ∧
    ((cachesKeys w.caches).Nodup → cachesKeys (activate env w).2.caches = [CACHE_NAME]) := by
  have hall := (promiseAll_activateDeletions env (cachesKeys w.caches) w).mpr hdel
  have hkeys : ∀ n : String, n ∈ cachesKeys (activate env w).2.caches ↔ n = CACHE_NAME := by
    intro n
    rw [activate_caches]
    unfold cachesKeys at hcur hdel ⊢
    simp only [List.mem_map, List.mem_filter, Bool.or_eq_true, beq_iff_eq]
    constructor
    · rintro ⟨e, ⟨hmem, hkeep⟩, rfl⟩
      rcases hkeep with h | h
      · exact h
      · by_contra hne
        have := hdel e.1 (List.mem_map_of_mem Prod.fst hmem) hne
        rw [this] at h
        exact Bool.false_ne_true h
    · rintro rfl
      obtain ⟨e, hmem, he⟩ := List.mem_map.mp hcur
      exact ⟨e, ⟨hmem, Or.inl he⟩, he⟩
  refine ⟨?_, hkeys, ?_, ?_⟩
  · rw [activate_eq, if_pos hall]
  · rw [activate_caches]
    generalize w.caches = cs
    induction cs with
    | nil => rfl
    | cons e rest ih =>
      obtain ⟨k, c⟩ := e
      by_cases hk : k = CACHE_NAME
      · subst hk
        simp [List.filter_cons]
      · have hk2 : (CACHE_NAME == k) = false := by simpa using fun h => hk h.symm
        rw [List.lookup_cons, hk2]
        by_cases hf : env.deleteFails k = true
        · simp only [List.filter_cons, hf, Bool.or_true, if_true]
          rw [List.lookup_cons, hk2]
          exact ih
        · have hf2 : env.deleteFails k = false := by simpa using hf
          have hk3 : (k == CACHE_NAME) = false := by simpa using hk
          simp only [List.filter_cons, hf2, hk3, Bool.or_false, Bool.false_eq_true, if_false]
          exact ih
  · intro hnd
    apply eq_singleton_of_nodup _ _ _ ((hkeys CACHE_NAME).mpr rfl) (fun x hx => (hkeys x).mp hx)
    rw [activate_caches]
    unfold cachesKeys at hnd ⊢
    exact hnd.sublist (List.Sublist.map _ (List.filter_sublist _))

/-- C3, evaluated: with two stale stores next to the current one and no
failing deletion, activate completes and only the current store is left. -/
theorem activate_leaves_only_current_witness :
    (activate offlinePlatform (Worker.fresh staleStores)).1 = Settled.fulfilled ∧
    cachesKeys (activate offlinePlatform (Worker.fresh staleStores)).2.caches = [CACHE_NAME] :=
  ⟨(activate_leaves_only_current offlinePlatform (Worker.fresh staleStores)
      (by decide) (fun _ _ _ => rfl)).1,
   (activate_leaves_only_current offlinePlatform (Worker.fresh staleStores)
      (by decide) (fun _ _ _ => rfl)).2.2.2 (by decide)⟩

/-- C8, refuted as stated: the deletion of one of two stale stores fails; both
deletions are attempted and the other store is removed, but the promise given
to `event.waitUntil` rejects and `clients.claim` is not called. -/
theorem activate_deletion_failure_rejects :
    (activate deletionFailsPlatform (Worker.fresh staleStores)).2.deleteCalls =
      ["mealmoment-v3", "mealmoment-v4"] ∧
    cachesKeys (activate deletionFailsPlatform (Worker.fresh staleStores)).2.caches =
      ["mealmoment-v4", CACHE_NAME] ∧
    (activate deletionFailsPlatform (Worker.fresh staleStores)).1 = Settled.rejected ∧
    (activate deletionFailsPlatform (Worker.fresh staleStores)).2.clientsClaimed = false := by
  decide

/-- C8, amended: whatever stale stores exist and whichever of their deletions
fail, activate attempts the deletion of every stale store and removes each one
whose deletion does not fail; its completion signal succeeds and
`clients.claim` is called exactly when no deletion fails. -/
theorem activate_attempts_all_deletions (env : Platform) (caches : CacheStorage) :
    (activate env (Worker.fresh caches)).2.deleteCalls =
      (cachesKeys caches).filter (fun n => n != CACHE_NAME) ∧
    (∀ n : String, n ≠ CACHE_NAME → env.deleteFails n = false →
      n ∉ cachesKeys (activate env (Worker.fresh caches)).2.caches) ∧
    ((activate env (Worker.fresh caches)).1 = Settled.fulfilled ↔
      ∀ n ∈ cachesKeys caches, n ≠ CACHE_NAME → env.deleteFails n = false) ∧
    ((activate env (Worker.fresh caches)).2.clientsClaimed = true ↔
      ∀ n ∈ cachesKeys caches, n ≠ CACHE_NAME → env.deleteFails n = false) := by
  refine ⟨?_, ?_, ?_, ?_⟩
  · simpa [Worker.fresh] using activate_deleteCalls env (Worker.fresh caches)
  · intro n hne hf
    rw [activate_caches]
    unfold cachesKeys
    simp only [List.mem_map, List.mem_filter, Bool.or_eq_true, beq_iff_eq, not_exists, not_and]
    rintro e ⟨_, hkeep⟩ rfl
    rcases hkeep with h | h
    · exact hne h
    · rw [hf] at h
      exact Bool.false_ne_true h
  · exact activate_fulfilled_iff env (Worker.fresh caches)
  · have h := activate_fulfilled_iff env (Worker.fresh caches)
    have hc : (Worker.fresh caches).caches = caches := rfl
    rw [hc] at h
    rw [activate_clientsClaimed, ← h]
    simp [Worker.fresh]

/-- C8 as amended, evaluated with the deletion of `mealmoment-v4` failing:
both stale deletions are attempted, `mealmoment-v3` is gone afterwards, and
neither does the completion signal succeed nor is `clients.claim` called. -/
theorem activate_attempts_all_deletions_witness :
    (activate deletionFailsPlatform (Worker.fresh staleStores)).2.deleteCalls =
      (cachesKeys staleStores).filter (fun n => n != CACHE_NAME) ∧
    "mealmoment-v3" ∉ cachesKeys (activate deletionFailsPlatform (Worker.fresh staleStores)).2.caches ∧
    (activate deletionFailsPlatform (Worker.fresh staleStores)).1 ≠ Settled.fulfilled ∧
    (activate deletionFailsPlatform (Worker.fresh staleStores)).2.clientsClaimed ≠ true :=
  ⟨(activate_attempts_all_deletions deletionFailsPlatform staleStores).1,
   (activate_attempts_all_deletions deletionFailsPlatform staleStores).2.1 "mealmoment-v3"
      (by decide) (by decide),
   fun h => absurd
      ((activate_attempts_all_deletions deletionFailsPlatform staleStores).2.2.1.mp h
        "mealmoment-v4" (by decide) (by decide)) (by decide),
   fun h => absurd
      ((activate_attempts_all_deletions deletionFailsPlatform staleStores).2.2.2.mp h
        "mealmoment-v4" (by decide) (by decide)) (by decide)⟩
end MealMoment
